import Mathlib

/-!
Verification development for the `ai-coding-rules` documentation-tooling
scripts.  The Python sources (`scripts/lint-md.py`, `scripts/lint-rules.py`,
`scripts/validate-mdc.py`, `scripts/migrate-to-mdc.py`,
`scripts/generate-pr-report.py`) are shallowly embedded: text is `List Char`,
the regex scans of the scripts are modelled as deterministic scanners that
reproduce the leftmost / lazy / greedy behaviour of the concrete patterns
used, file systems are explicit association lists, and the external
collaborators (the YAML library) are function parameters.
-/

namespace RulesLint

/-- Python regex class `\s` on the ASCII inputs handled here:
space, tab, newline, carriage return, vertical tab, form feed. -/
def isPySpace (c : Char) : Bool :=
  c = ' ' || c = '\t' || c = '\n' || c = '\r' || c = Char.ofNat 11 || c = Char.ofNat 12

/-- Python regex class `\w` on ASCII inputs: letters, digits, underscore. -/
def isPyWord (c : Char) : Bool :=
  ('a' ≤ c && c ≤ 'z') || ('A' ≤ c && c ≤ 'Z') || ('0' ≤ c && c ≤ '9') || c = '_'

/-- The backquote character (code 96). -/
def btick : Char := Char.ofNat 96

/-- Python substring test `pat in s` (`str.__contains__`). -/
def hasSub (pat : List Char) : List Char → Bool
  | [] => pat.isEmpty
  | c :: t => pat.isPrefixOf (c :: t) || hasSub pat t

/-- Python `str.strip()`: whitespace removed from both ends. -/
def trimL (cs : List Char) : List Char :=
  ((cs.dropWhile isPySpace).reverse.dropWhile isPySpace).reverse

/-- Remainder after the first newline, if any: models matching `[^\n]*\n`
right after a fence opener. -/
def afterNewline : List Char → Option (List Char)
  | [] => none
  | c :: t => if c = '\n' then some t else afterNewline t

/-- Search for the lazy closing fence of lint-rules
(`.*?` followed by exactly three backquotes): remainder after the first
occurrence of three consecutive backquotes. -/
def closeRules : List Char → Option (List Char)
  | [] => none
  | c :: t =>
    if c = btick && [btick, btick].isPrefixOf t then some (t.drop 2)
    else closeRules t

/-- Search for the lazy closing fence of lint-md
(`.*?` followed by a greedy run of three-or-more backquotes): remainder
after the whole first run of at least three consecutive backquotes. -/
def closeMd : List Char → Option (List Char)
  | [] => none
  | c :: t =>
    if c = btick && [btick, btick].isPrefixOf t then
      some ((t.drop 2).dropWhile (· = btick))
    else closeMd t

/-- Opening-fence match of the pattern of `CODE_BLOCK_PATTERN`
(three backquotes, then an optional `\w+` language tag, then a newline):
returns the tag and the remainder after the newline.  Backtracking is
irrelevant because a shorter tag run leaves a word character where the
newline is required, so the match is deterministic. -/
def openRules (cs : List Char) : Option (List Char × List Char) :=
  if [btick, btick, btick].isPrefixOf cs then
    let r := cs.drop 3
    match (r.dropWhile isPyWord) with
    | '\n' :: rest => some (r.takeWhile isPyWord, rest)
    | _ => none
  else none

/-- Opening-fence match of `FULL_CODE_BLOCK_PATTERN` of lint-md
(a greedy run of three-or-more backquotes, then `[^\n]*`, then a newline):
returns the remainder after the first newline.  The `[^\n]*` part always
extends to the first newline, so the match is deterministic. -/
def openMd (cs : List Char) : Option (List Char) :=
  if 3 ≤ (cs.takeWhile (· = btick)).length then
    afterNewline (cs.dropWhile (· = btick))
  else none

/-- One `re.sub` / `re.findall` scan for lint-rules `CODE_BLOCK_PATTERN`
(three backquotes, optional word tag, newline, lazy body, three backquotes,
with DOTALL): returns the text with every non-overlapping leftmost match
removed, paired with the number of matches. -/
def scanRules : Nat → List Char → List Char × Nat
  | 0, cs => (cs, 0)
  | _ + 1, [] => ([], 0)
  | f + 1, c :: t =>
    match openRules (c :: t) with
    | some (_, rest) =>
      match closeRules rest with
      | some rest2 =>
        let p := scanRules f rest2
        (p.1, p.2 + 1)
      | none =>
        let p := scanRules f t
        (c :: p.1, p.2)
    | none =>
      let p := scanRules f t
      (c :: p.1, p.2)

/-- The `re.sub` scan for lint-md `FULL_CODE_BLOCK_PATTERN`
(three-or-more backquotes, rest of line, lazy body, three-or-more
backquotes, with DOTALL): returns the text with every non-overlapping
leftmost match removed. -/
def scanMd : Nat → List Char → List Char
  | 0, cs => cs
  | _ + 1, [] => []
  | f + 1, c :: t =>
    match openMd (c :: t) with
    | some rest =>
      match closeMd rest with
      | some rest2 => scanMd f rest2
      | none => c :: scanMd f t
    | none => c :: scanMd f t

/-- The `re.findall` scan of lint-md `CODE_BLOCK_PATTERN`
(three backquotes, optional word tag, newline): the list of language tags
of every non-overlapping leftmost match, in order.  Both opening and
closing fence lines of a block match this pattern. -/
def scanTags : Nat → List Char → List (List Char)
  | 0, _ => []
  | _ + 1, [] => []
  | f + 1, c :: t =>
    match openRules (c :: t) with
    | some (w, rest) => w :: scanTags f rest
    | none => scanTags f t

/-- The scan of lint-md `HEADER_PATTERN` (`^(#{1,6})\s+` with MULTILINE):
levels of the matched headings in order.  The `bol` flag tracks whether the
current position is a line start (where `^` can match); a match consumes
the hashes and the maximal following whitespace run, and the next position
is a line start exactly when the last consumed whitespace character was a
newline. -/
def headersMdGo : Nat → Bool → List Char → List Nat
  | 0, _, _ => []
  | _ + 1, _, [] => []
  | f + 1, bol, c :: t =>
    if bol && c = '#' then
      let m := 1 + (t.takeWhile (· = '#')).length
      let rest := t.dropWhile (· = '#')
      let ws := rest.takeWhile isPySpace
      if m ≤ 6 ∧ ws ≠ [] then
        m :: headersMdGo f (ws.getLastD ' ' == '\n') (rest.dropWhile isPySpace)
      else
        headersMdGo f false t
    else
      headersMdGo f (c == '\n') t

/-- Heading levels extracted by lint-md `HEADER_PATTERN.findall`. -/
def headersMd (cs : List Char) : List Nat :=
  headersMdGo (cs.length + 1) true cs

/-- The scan of lint-rules `HEADER_PATTERN` (`^(#{1,6})\s+(.+)$` with
MULTILINE): levels of the matched headings in order.  After the hashes the
greedy `\s+` runs to the first non-whitespace character (possibly past
newlines) and `(.+)$` then consumes the rest of that line, so a match
additionally requires some non-whitespace character after the whitespace
run. -/
def headersRulesGo : Nat → Bool → List Char → List Nat
  | 0, _, _ => []
  | _ + 1, _, [] => []
  | f + 1, bol, c :: t =>
    if bol && c = '#' then
      let m := 1 + (t.takeWhile (· = '#')).length
      let rest := t.dropWhile (· = '#')
      let ws := rest.takeWhile isPySpace
      let rest2 := rest.dropWhile isPySpace
      if m ≤ 6 ∧ ws ≠ [] ∧ rest2 ≠ [] then
        m :: headersRulesGo f false (rest2.dropWhile (· ≠ '\n'))
      else
        headersRulesGo f false t
    else
      headersRulesGo f (c == '\n') t

/-- Heading levels extracted by lint-rules `HEADER_PATTERN.findall`. -/
def headersRules (cs : List Char) : List Nat :=
  headersRulesGo (cs.length + 1) true cs

/-- Heading-skip walk shared by both linters: emit a pair for every
heading whose level exceeds the previous level plus one, threading the
previous level. -/
def skipScanFrom (prev : Nat) : List Nat → List (Nat × Nat)
  | [] => []
  | c :: t => (if prev + 1 < c then [(prev, c)] else []) ++ skipScanFrom c t

end RulesLint

namespace RulesLint.LintMd

/-- Constant `RULE_FILE_KEYWORDS` of `scripts/lint-md.py`. -/
def RULE_FILE_KEYWORDS : List String := ["rulesets", "rules", "coderules"]

/-- Function `is_rule_file` of `scripts/lint-md.py`: the keywords are tested
with Python `in` against `str(file_path)`, i.e. as substrings of the whole
rendered path. -/
def isRuleFile (pathStr : List Char) : Bool :=
  RULE_FILE_KEYWORDS.any fun k => hasSub k.data pathStr

/-- Join path segments with a slash: the rendering `str(file_path)` of a
`pathlib.Path` built from these segments. -/
def joinSegs : List (List Char) → List Char
  | [] => []
  | [a] => a
  | a :: b :: t => a ++ '/' :: joinSegs (b :: t)

/-- Rendered path string of a segment list. -/
def pathOf (segs : List String) : List Char :=
  joinSegs (segs.map String.data)

/-- Last path segment: `Path.name`. -/
def pathName (segs : List String) : List Char :=
  (segs.getLastD "").data

/-- Character class `[a-z0-9-]` of `FILENAME_PATTERN`. -/
def isFnChar (c : Char) : Bool :=
  ('a' ≤ c && c ≤ 'z') || ('0' ≤ c && c ≤ '9') || c = '-'

/-- Match of lint-md `FILENAME_PATTERN` (`^\d{2}-[a-z0-9-]+\.md$`).  The
greedy body run cannot cross a dot, so the body is the maximal run and the
remainder must be exactly `.md`. -/
def matchesFilenameMd (name : List Char) : Bool :=
  match name with
  | d1 :: d2 :: '-' :: rest =>
    d1.isDigit && d2.isDigit && !(rest.takeWhile isFnChar).isEmpty &&
      rest.dropWhile isFnChar == ".md".data
  | _ => false

/-- Function `check_filename_format` of `scripts/lint-md.py`: `none` when no
error is reported, otherwise the offending file name (the Chinese message
text is abstracted to its payload). -/
def checkFilenameFormat (segs : List String) : Option (List Char) :=
  if isRuleFile (pathOf segs) = false then none
  else if matchesFilenameMd (pathName segs) then none
  else some (pathName segs)

/-- Function `remove_code_blocks` of `scripts/lint-md.py`
(`FULL_CODE_BLOCK_PATTERN.sub("", content)`). -/
def removeCodeBlocks (cs : List Char) : List Char :=
  scanMd (cs.length + 1) cs

/-- Heading levels of `HEADER_PATTERN.findall` applied after
`remove_code_blocks`, as in `check_header_levels` / `check_header_skipping`. -/
def headerLevelsOf (cs : List Char) : List Nat :=
  headersMd (removeCodeBlocks cs)

/-- Function `check_header_levels` of `scripts/lint-md.py`: one error per
heading whose level exceeds `MAX_HEADER_LEVEL = 4`; the error payload is the
offending level. -/
def checkHeaderLevels (cs : List Char) : List Nat :=
  (headerLevelsOf cs).filter fun l => 4 < l

/-- Skip walk of `check_header_skipping` (`for i in range(1, len)`): the
first heading is never compared against anything. -/
def skipOfLevels : List Nat → List (Nat × Nat)
  | [] => []
  | a :: t => skipScanFrom a t

/-- Function `check_header_skipping` of `scripts/lint-md.py`: error payloads
are the (previous, current) level pairs. -/
def checkHeaderSkipping (cs : List Char) : List (Nat × Nat) :=
  skipOfLevels (headerLevelsOf cs)

/-- Tags of `CODE_BLOCK_PATTERN.findall(content)` on the raw, non-stripped
text, as in `check_code_block_language_tags`. -/
def tagsOf (cs : List Char) : List (List Char) :=
  scanTags (cs.length + 1) cs

/-- One-based positions of the scanned fence lines with an empty language
tag (`enumerate(code_blocks, 1)`). -/
def emptyTagPositions (cs : List Char) : List Nat :=
  (tagsOf cs).enum.filterMap fun p => if p.2.isEmpty then some (p.1 + 1) else none

/-- Function `check_code_block_language_tags` of `scripts/lint-md.py`: at
most one aggregated error, whose payload is the list of displayed positions
(capped at the first 5). -/
def checkCodeBlockLanguageTags (cs : List Char) : List (List Nat) :=
  let ps := emptyTagPositions cs
  if ps.isEmpty then [] else [ps.take 5]

end RulesLint.LintMd

namespace RulesLint.LintRules

/-- Findings of `scripts/lint-rules.py`, identified by their payload (the
Chinese message strings are abstracted to the data they interpolate). -/
inductive Issue
  | depthErr (level : Nat)
  | skipErr (previous current : Nat)
  | depthWarn (maxLevel : Nat)
  | fnameErr (name : List Char)
  | noExamples
  | fewExamples (count : Nat)
  | noGoodBad
  | conciseLong (lineCount : Nat)
  | notFound
  | readFail (msg : String)
  deriving DecidableEq, Repr

/-- Severity split of `Issue`: which findings carry `"type": "error"`. -/
def Issue.isErr : Issue → Bool
  | .depthErr _ => true
  | .skipErr _ _ => true
  | .fnameErr _ => true
  | .noExamples => true
  | .notFound => true
  | .readFail _ => true
  | _ => false

/-- Discriminator for depth-error findings. -/
def Issue.isDepthErrB : Issue → Bool
  | .depthErr _ => true
  | _ => false

/-- Match of lint-rules `FILENAME_PATTERN` (`^\d{2}-[a-z0-9-]+\.(mdc|md)$`). -/
def matchesFilenameRules (name : List Char) : Bool :=
  match name with
  | d1 :: d2 :: '-' :: rest =>
    d1.isDigit && d2.isDigit && !(rest.takeWhile LintMd.isFnChar).isEmpty &&
      (rest.dropWhile LintMd.isFnChar == ".mdc".data ||
        rest.dropWhile LintMd.isFnChar == ".md".data)
  | _ => false

/-- Method `check_filename` of `RuleLinter`: `README.md` is skipped, any
other name must match the filename pattern. -/
def checkFilename (name : List Char) : List Issue :=
  if name == "README.md".data then []
  else if matchesFilenameRules name then [] else [.fnameErr name]

/-- Code stripping of `check_header_levels`
(`CODE_BLOCK_PATTERN.sub("", content)`). -/
def removeCode (cs : List Char) : List Char :=
  (scanRules (cs.length + 1) cs).1

/-- Count of `CODE_BLOCK_PATTERN.findall(content)` used by
`check_code_examples`. -/
def codeBlockCount (cs : List Char) : Nat :=
  (scanRules (cs.length + 1) cs).2

/-- Heading levels seen by `check_header_levels` after code stripping. -/
def strippedLevels (cs : List Char) : List Nat :=
  headersRules (removeCode cs)

/-- Python `max(..., default=0)` over the heading levels. -/
def maxLevel (levels : List Nat) : Nat :=
  levels.foldr max 0

/-- Issues of `RuleLinter.check_header_levels` as a function of the heading
level sequence: one depth error per heading with level above
`MAX_HEADER_LEVEL = 4`, one skip error per heading whose level exceeds the
previous level plus one (the walk starts at previous level 0), and a single
depth warning naming the maximal level when it exceeds 3. -/
def headerIssues (levels : List Nat) : List Issue :=
  (levels.filter fun l => 4 < l).map Issue.depthErr
    ++ (skipScanFrom 0 levels).map (fun p => Issue.skipErr p.1 p.2)
    ++ (if 3 < maxLevel levels then [Issue.depthWarn (maxLevel levels)] else [])

/-- Method `check_header_levels` of `RuleLinter`. -/
def checkHeaderLevels (cs : List Char) : List Issue :=
  headerIssues (strippedLevels cs)

/-- Case-insensitive comparison of a text against a lower-case pattern,
looking only at the next `pat.length` characters. -/
def lowerEq (cs : List Char) (pat : List Char) : Bool :=
  (cs.take pat.length).map Char.toLower == pat ∧ pat.length ≤ cs.length

/-- Continuation of `GOOD_BAD_PATTERN` after the comment marker:
`\s*` then one of `Good`, `Bad`, a check mark or a cross, ignoring case. -/
def goodBadTail (cs : List Char) : Bool :=
  let r := cs.dropWhile isPySpace
  lowerEq r "good".data || lowerEq r "bad".data ||
    lowerEq r "✅".data || lowerEq r "❌".data

/-- Match attempt of `GOOD_BAD_PATTERN` (`(//|#)\s*(Good|Bad|✅|❌)` with
IGNORECASE) at the current position. -/
def goodBadAt (cs : List Char) : Bool :=
  if ['/', '/'].isPrefixOf cs then goodBadTail (cs.drop 2)
  else if ['#'].isPrefixOf cs then goodBadTail (cs.drop 1)
  else false

/-- Whether `GOOD_BAD_PATTERN.findall(content)` is non-empty. -/
def hasGoodBad : List Char → Bool
  | [] => false
  | c :: t => goodBadAt (c :: t) || hasGoodBad t

/-- Method `check_code_examples` of `RuleLinter`. -/
def checkCodeExamples (pathStr : List Char) (cs : List Char) : List Issue :=
  let n := codeBlockCount cs
  let isConcise := hasSub ".concise-rules".data pathStr
  (if n = 0 then (if isConcise then [] else [Issue.noExamples])
   else if n < 2 ∧ isConcise = false then [Issue.fewExamples n] else [])
    ++ (if isConcise = false ∧ hasGoodBad cs = false ∧ 0 < n then
          [Issue.noGoodBad]
        else [])

/-- Python `str.splitlines()` length: line terminators are `\n`, `\r` and
`\r\n`, and a trailing terminator does not add a line. -/
def countLinesGo : Nat → List Char → Nat
  | 0, _ => 0
  | _ + 1, [] => 0
  | f + 1, cs =>
    match cs.dropWhile (fun c => c ≠ '\n' && c ≠ '\r') with
    | [] => 1
    | '\r' :: '\n' :: t => 1 + countLinesGo f t
    | _ :: t => 1 + countLinesGo f t

/-- Line count of a text, as `len(content.splitlines())`. -/
def countLines (cs : List Char) : Nat :=
  countLinesGo (cs.length + 1) cs

/-- Method `check_concise_format` of `RuleLinter`
(`MAX_CONCISE_LINES = 150`). -/
def checkConciseFormat (pathStr : List Char) (cs : List Char) : List Issue :=
  if hasSub ".concise-rules".data pathStr then
    (if 150 < countLines cs then [Issue.conciseLong (countLines cs)] else [])
  else []

/-- A file presented to the linter: its path segments (`Path.parts`),
whether it exists, and the outcome of reading it (`Except` carries the
caught read-failure message). -/
structure FileRec where
  parts : List String
  ex : Bool
  content : Except String String
  deriving Repr

/-- Last path segment (`Path.name`). -/
def FileRec.nameOf (f : FileRec) : String :=
  f.parts.getLastD ""

/-- Rendered path string (`str(file_path)`). -/
def FileRec.pathStr (f : FileRec) : List Char :=
  LintMd.pathOf f.parts

/-- Exemption test used by `check_file`, `check_directory` and the JSON
directory walk: named exactly `README.md`, or a `docs` segment anywhere in
the path. -/
def isExempt (f : FileRec) : Bool :=
  f.nameOf == "README.md" || f.parts.contains "docs"

/-- Method `check_file` of `RuleLinter`: the `(valid, errors, warnings)`
triple. -/
def checkFile (f : FileRec) : Bool × List Issue × List Issue :=
  if f.ex = false then (false, [.notFound], [])
  else if isExempt f then (true, [], [])
  else
    match f.content with
    | .error e => (false, [.readFail e], [])
    | .ok c =>
      let cs := c.data
      let headerIs := checkHeaderLevels cs
      let codeIs := checkCodeExamples f.pathStr cs
      let errors := checkFilename f.nameOf.data
        ++ headerIs.filter Issue.isErr ++ codeIs.filter Issue.isErr
      let warnings := headerIs.filter (fun i => !i.isErr)
        ++ codeIs.filter (fun i => !i.isErr) ++ checkConciseFormat f.pathStr cs
      (errors.isEmpty, errors, warnings)

/-- Method `check_directory` of `RuleLinter`: `(pass, fail)` counts; files
named `README.md` or under a `docs` segment are skipped with `continue`
before `check_file` is called. -/
def checkDirectory (files : List FileRec) : Nat × Nat :=
  files.foldl
    (fun acc f =>
      if isExempt f then acc
      else if (checkFile f).1 then (acc.1 + 1, acc.2) else (acc.1, acc.2 + 1))
    (0, 0)

/-- Per-file results assembled by the `--json` directory branch of `main`:
exempt files are skipped with `continue` and contribute no entry. -/
def dirResults (files : List FileRec) : List (Bool × List Issue × List Issue) :=
  files.filterMap fun f => if isExempt f then none else some (checkFile f)

/-- Tallying that `check_directory` would produce without the exemption
skip: used to state what the skip removes. -/
def countsOver (files : List FileRec) : Nat × Nat :=
  files.foldl
    (fun acc f =>
      if (checkFile f).1 then (acc.1 + 1, acc.2) else (acc.1, acc.2 + 1))
    (0, 0)

end RulesLint.LintRules

namespace RulesLint.ValidateMdc

/-- YAML values as far as the schema checks of `validate-mdc.py`
distinguish them. -/
inductive YVal
  | yStr (s : String)
  | yBool (b : Bool)
  | yInt (n : Int)
  | yList (xs : List YVal)
  | yDict (kvs : List (String × YVal))
  | yNull

/-- Outcome of `yaml.safe_load`: either a raised-and-caught `YAMLError`
carrying its message, or a parsed value.  The parser itself is external and
is passed as a function parameter. -/
inductive YParse
  | perr (msg : String)
  | pok (v : YVal)

/-- Error findings of `MDCValidator.validate_file`, identified by payload. -/
inductive VErr
  | notExists (path : String)
  | badSuffix (path : String)
  | readFail (msg : String)
  | noFrontmatter
  | badDelims
  | yamlErr (msg : String)
  | notDict
  | missingField (field : String)
  | descNotStr
  | globsNotList
  | alwaysApplyNotBool
  deriving DecidableEq, Repr

/-- Warning findings of `MDCValidator.validate_file`, identified by payload. -/
inductive VWarn
  | descTooLong
  | globsEmpty
  | tagsNotList
  | tagsEmpty
  | versionNotStr
  | versionNotSemver (v : String)
  | emptyContent
  deriving DecidableEq, Repr

/-- Leftmost split at one occurrence of a pattern: the part before and the
part after, or `none` when the pattern does not occur. -/
def splitOnce (pat : List Char) : List Char → Option (List Char × List Char)
  | [] => none
  | c :: t =>
    if pat.isPrefixOf (c :: t) then some ([], (c :: t).drop pat.length)
    else
      match splitOnce pat t with
      | some (a, r) => some (c :: a, r)
      | none => none

/-- Python `content.split(pat, 2)`: at most two splits, scanning left to
right. -/
def split3 (pat cs : List Char) : List (List Char) :=
  match splitOnce pat cs with
  | none => [cs]
  | some (a, r) =>
    match splitOnce pat r with
    | none => [a, r]
    | some (b, r2) => [a, b, r2]

/-- Match of the version pattern `^\d+\.\d+\.\d+$`: each greedy digit run
cannot cross a dot, so the decomposition is deterministic. -/
def matchSemver (cs : List Char) : Bool :=
  let d1 := cs.takeWhile Char.isDigit
  match cs.dropWhile Char.isDigit with
  | '.' :: r1 =>
    let d2 := r1.takeWhile Char.isDigit
    match r1.dropWhile Char.isDigit with
    | '.' :: r2 =>
      let d3 := r2.takeWhile Char.isDigit
      !d1.isEmpty && !d2.isEmpty && !d3.isEmpty &&
        (r2.dropWhile Char.isDigit).isEmpty
    | _ => false
  | _ => false

/-- Last component of a path string (`Path.name`). -/
def lastSeg (p : String) : List Char :=
  (p.data.reverse.takeWhile (· ≠ '/')).reverse

/-- Extension of a path (`Path.suffix`): the part of the last component
from its last dot, when that dot is neither the first nor the last
character of the component; otherwise empty. -/
def pySuffix (p : String) : List Char :=
  let rev := (lastSeg p).reverse
  let after := rev.takeWhile (· ≠ '.')
  match rev.dropWhile (· ≠ '.') with
  | '.' :: rest => if rest ≠ [] ∧ after ≠ [] then '.' :: after.reverse else []
  | _ => []

/-- Required frontmatter keys of `validate-mdc.py`. -/
def requiredFields : List String := ["description", "globs", "alwaysApply"]

/-- Error findings of the schema section of `validate_file`, in emission
order: one missing-field error per absent required key, then the type
errors for `description`, `globs` and `alwaysApply`. -/
def schemaErrors (kvs : List (String × YVal)) : List VErr :=
  (requiredFields.filterMap fun fld =>
    if (kvs.lookup fld).isNone then some (VErr.missingField fld) else none)
  ++ (match kvs.lookup "description" with
      | some (YVal.yStr _) => []
      | some _ => [VErr.descNotStr]
      | none => [])
  ++ (match kvs.lookup "globs" with
      | some (YVal.yList _) => []
      | some _ => [VErr.globsNotList]
      | none => [])
  ++ (match kvs.lookup "alwaysApply" with
      | some (YVal.yBool _) => []
      | some _ => [VErr.alwaysApplyNotBool]
      | none => [])

/-- Warning findings of the schema section of `validate_file`, in emission
order; `contentEmpty` is whether the stripped body after the closing
delimiter is empty. -/
def schemaWarnings (kvs : List (String × YVal)) (contentEmpty : Bool) : List VWarn :=
  (match kvs.lookup "description" with
   | some (YVal.yStr s) => if 200 < s.length then [VWarn.descTooLong] else []
   | _ => [])
  ++ (match kvs.lookup "globs" with
      | some (YVal.yList xs) => if xs.isEmpty then [VWarn.globsEmpty] else []
      | _ => [])
  ++ (match kvs.lookup "tags" with
      | some (YVal.yList xs) => if xs.isEmpty then [VWarn.tagsEmpty] else []
      | some _ => [VWarn.tagsNotList]
      | none => [])
  ++ (match kvs.lookup "version" with
      | some (YVal.yStr s) =>
        if matchSemver s.data then [] else [VWarn.versionNotSemver s]
      | some _ => [VWarn.versionNotStr]
      | none => [])
  ++ (if contentEmpty then [VWarn.emptyContent] else [])

/-- Method `MDCValidator.validate_file`: existence and extension gates,
read outcome, frontmatter delimiting, parse outcome (a parse failure is
caught and becomes a finding), dictionary check, then schema checks.  The
result is always a `(valid, errors, warnings)` triple. -/
def validateFile (ex : Bool) (path : String) (readRes : Except String String)
    (parse : List Char → YParse) : Bool × List VErr × List VWarn :=
  if ex = false then (false, [VErr.notExists path], [])
  else if pySuffix path ≠ ".mdc".data then (false, [VErr.badSuffix path], [])
  else
    match readRes with
    | .error e => (false, [VErr.readFail e], [])
    | .ok content =>
      if ("---".data).isPrefixOf content.data = false then
        (false, [VErr.noFrontmatter], [])
      else
        match split3 ("---".data) content.data with
        | [_, p1, p2] =>
          match parse (trimL p1) with
          | YParse.perr e => (false, [VErr.yamlErr e], [])
          | YParse.pok (YVal.yDict kvs) =>
            let errors := schemaErrors kvs
            let warnings := schemaWarnings kvs (trimL p2).isEmpty
            (errors.isEmpty, errors, warnings)
          | YParse.pok _ => (false, [VErr.notDict], [])
        | _ => (false, [VErr.badDelims], [])

end RulesLint.ValidateMdc

namespace RulesLint.Migrate

open RulesLint.ValidateMdc (pySuffix lastSeg)

/-- Frontmatter record produced by `MDCMigrator.infer_metadata`. -/
structure MdcMeta where
  description : String
  globs : List String
  alwaysApply : Bool
  tags : List String
  version : String
  author : String

/-- File-system state: an association of paths to contents. -/
structure FS where
  files : List (String × String)
  deriving DecidableEq, Repr

/-- Read a file, when present. -/
def FS.read (fs : FS) (p : String) : Option String :=
  fs.files.lookup p

/-- Existence test (`Path.exists`). -/
def FS.hasFile (fs : FS) (p : String) : Bool :=
  (fs.read p).isSome

/-- Write (create or overwrite) a file. -/
def FS.write (fs : FS) (p : String) (c : String) : FS :=
  ⟨(p, c) :: fs.files.filter fun kv => kv.1 ≠ p⟩

/-- Delete a file (`Path.unlink`). -/
def FS.unlink (fs : FS) (p : String) : FS :=
  ⟨fs.files.filter fun kv => kv.1 ≠ p⟩

/-- Stem of a path (`Path.stem`): last component without its suffix. -/
def pyStem (p : String) : List Char :=
  (lastSeg p).take ((lastSeg p).length - (pySuffix p).length)

/-- Python `re.sub(r"^\d+-", "", s)`: drop a leading digit run followed by
a hyphen, when present. -/
def dropNumPre (cs : List Char) : List Char :=
  match cs.dropWhile Char.isDigit with
  | '-' :: rest => if (cs.takeWhile Char.isDigit).isEmpty then cs else rest
  | _ => cs

/-- Python `str.title()`: a letter is upper-cased when the previous
character is not a letter, and lower-cased otherwise. -/
def pyTitle (cs : List Char) : List Char :=
  (cs.foldl
    (fun acc c =>
      let out := if c.isAlpha then (if acc.2 then c.toLower else c.toUpper) else c
      (acc.1 ++ [out], c.isAlpha))
    (([] : List Char), false)).1

/-- Method `_infer_description`: the first content line when it is a
heading, otherwise a title-cased name derived from the stem. -/
def inferDescription (path : String) (content : String) : String :=
  let nm := pyTitle ((dropNumPre (pyStem path)).map fun c =>
    if c = '-' then ' ' else c)
  let stripped := trimL content.data
  let firstLine := stripped.takeWhile (· ≠ '\n')
  let fallback : List Char := nm ++ " 规则".data
  if firstLine.head? = some '#' then
    let t := trimL (firstLine.dropWhile (· = '#'))
    if t ≠ [] then ⟨t⟩ else ⟨fallback⟩
  else ⟨fallback⟩

/-- Lower-cased stem used by the inference heuristics. -/
def stemLower (path : String) : List Char :=
  (pyStem path).map Char.toLower

/-- Method `_infer_globs`. -/
def inferGlobs (path : String) : List String :=
  let fn := stemLower path
  if hasSub "python".data fn || hasSub "fastapi".data fn then ["**/*.py"]
  else if hasSub "react".data fn then ["**/*.tsx", "**/*.jsx"]
  else if hasSub "vue".data fn then ["**/*.vue"]
  else if hasSub "typescript".data fn || hasSub "ts".data fn then
    ["**/*.ts", "**/*.tsx"]
  else if hasSub "javascript".data fn || hasSub "js".data fn then
    ["**/*.js", "**/*.jsx"]
  else if hasSub "general".data fn || hasSub "meta".data fn then ["**/*"]
  else if hasSub "testing".data fn || hasSub "test".data fn then
    ["**/*test*.py", "**/*test*.ts", "**/*test*.js"]
  else if hasSub "security".data fn then ["**/*"]
  else ["**/*"]

/-- Method `_infer_always_apply`. -/
def inferAlwaysApply (path : String) : Bool :=
  let fn := stemLower path
  if ["general", "meta", "security"].any (fun k => hasSub k.data fn) then true
  else if ["python", "react", "vue", "typescript", "javascript", "fastapi"].any
      (fun k => hasSub k.data fn) then false
  else false

/-- Method `_infer_tags`. -/
def inferTags (path : String) (content : String) : List String :=
  let fn := stemLower path
  let cl := content.data.map Char.toLower
  let tags :=
    (if hasSub "python".data fn || hasSub "python".data cl then
      ["python"] else [])
    ++ (if hasSub "typescript".data fn || hasSub "typescript".data cl ||
          hasSub "ts".data fn then ["typescript"] else [])
    ++ (if hasSub "javascript".data fn || hasSub "javascript".data cl ||
          hasSub "js".data fn then ["javascript"] else [])
    ++ (if hasSub "react".data fn || hasSub "react".data cl then
          ["react"] else [])
    ++ (if hasSub "vue".data fn || hasSub "vue".data cl then ["vue"] else [])
    ++ (if hasSub "fastapi".data fn || hasSub "fastapi".data cl then
          ["fastapi"] else [])
    ++ (if hasSub "test".data fn || hasSub "testing".data fn then
          ["testing"] else [])
    ++ (if hasSub "security".data fn || hasSub "security".data cl then
          ["security"] else [])
    ++ (if hasSub "general".data fn || hasSub "meta".data fn then
          ["general"] else [])
    ++ (if hasSub "coding-standards".data fn || hasSub "coding-standards".data cl
        then ["coding-standards"] else [])
  if tags.isEmpty then ["general"] else tags

/-- Method `MDCMigrator.infer_metadata`. -/
def inferMetadata (path : String) (content : String) : MdcMeta :=
  { description := inferDescription path content
    globs := inferGlobs path
    alwaysApply := inferAlwaysApply path
    tags := inferTags path content
    version := "1.0.0"
    author := "ai-coding-rules-team" }

/-- Target path of the conversion (`md_file.with_suffix(".mdc")`). -/
def withSuffixMdc (p : String) : String :=
  ⟨(p.data.take (p.data.length - (pySuffix p).length)) ++ ".mdc".data⟩

/-- Content computation of `convert_to_mdc`: a file already carrying
frontmatter is kept verbatim, otherwise inferred metadata is serialised by
the external `yaml.dump` (the `dump` parameter), stripped, and wrapped in
delimiters. -/
def buildMdcContent (dump : MdcMeta → String) (path : String)
    (content : String) : String :=
  if ("---".data).isPrefixOf content.data then content
  else
    let fm : String := ⟨trimL (dump (inferMetadata path content)).data⟩
    "---\n" ++ fm ++ "\n---\n\n" ++ content

/-- Method `MDCMigrator.migrate_file`: gates on existence, extension and a
pre-existing target, then either reports the dry run or writes the target
and deletes the source.  Returns the success flag and the resulting
file-system state. -/
def migrateFile (dump : MdcMeta → String) (dryRun force : Bool)
    (mdPath : String) (fs : FS) : Bool × FS :=
  if fs.hasFile mdPath = false then (false, fs)
  else if pySuffix mdPath ≠ ".md".data then (false, fs)
  else if fs.hasFile (withSuffixMdc mdPath) ∧ force = false then (false, fs)
  else if dryRun then (true, fs)
  else
    match fs.read mdPath with
    | none => (false, fs)
    | some content =>
      (true, (fs.write (withSuffixMdc mdPath)
        (buildMdcContent dump mdPath content)).unlink mdPath)

end RulesLint.Migrate

namespace RulesLint.PrReport

/-- Fields of the `rule_check` dictionary read by
`calculate_quality_score`; `warnings` is the length of the warning list. -/
structure RuleCheck where
  hasRules : Bool
  valid : Bool
  warnings : Nat

/-- Fields of the `documentation_check` dictionary. -/
structure DocCheck where
  hasRuleChanges : Bool
  docsUpdated : Bool

/-- Fields of the `token_check` dictionary; `check_token_consumption` sets
`meetsTarget` to `avgReduction ≥ 70`. -/
structure TokenCheck where
  checked : Bool
  meetsTarget : Bool
  avgReduction : ℚ

/-- Score after the rule-check section of `calculate_quality_score`:
either the 40-point deduction for a failed validation, or the per-warning
deduction floored at 0 (only when validation passed), from a base of 100. -/
def scoreBase (rc : RuleCheck) : Int :=
  if rc.hasRules then
    (if rc.valid = false then 100 - 40
     else if 0 < rc.warnings then max 0 (100 - 5 * (rc.warnings : Int))
     else 100)
  else 100

/-- Score after the documentation section: 20 more points off when rule
files changed without a documentation update. -/
def scoreDoc (rc : RuleCheck) (dc : DocCheck) : Int :=
  if dc.hasRuleChanges ∧ dc.docsUpdated = false then scoreBase rc - 20
  else scoreBase rc

/-- Score after the token section: 40 or 20 more points off for a
token-reduction shortfall. -/
def scoreRaw (rc : RuleCheck) (dc : DocCheck) (tc : TokenCheck) : Int :=
  if tc.checked ∧ tc.meetsTarget = false then
    (if tc.avgReduction < 50 then scoreDoc rc dc - 40
     else if tc.avgReduction < 70 then scoreDoc rc dc - 20
     else scoreDoc rc dc)
  else scoreDoc rc dc

/-- Function `calculate_quality_score` of `generate-pr-report.py`: the
sequence of conditional deductions, clamped to `[0, 100]` at the end. -/
def calculateQualityScore (rc : RuleCheck) (dc : DocCheck) (tc : TokenCheck) : Int :=
  max 0 (min 100 (scoreRaw rc dc tc))

/-- Exit code of `main`: zero exactly when the score reaches 60. -/
def mainExitCode (rc : RuleCheck) (dc : DocCheck) (tc : TokenCheck) : Nat :=
  if 60 ≤ calculateQualityScore rc dc tc then 0 else 1

/-- Changelog penalty as the specification states it. -/
def docPenalty (dc : DocCheck) : Int :=
  if dc.hasRuleChanges ∧ dc.docsUpdated = false then 20 else 0

/-- Token-reduction penalty as the specification states it. -/
def tokenPenalty (tc : TokenCheck) : Int :=
  if tc.checked ∧ tc.meetsTarget = false then
    (if tc.avgReduction < 50 then 40 else if tc.avgReduction < 70 then 20 else 0)
  else 0

/-- Score formula under the claim's reading, where every applicable penalty
is subtracted: the validation-failure penalty and the per-warning penalty
accumulate. -/
def claimScore (rc : RuleCheck) (dc : DocCheck) (tc : TokenCheck) : Int :=
  let p40 : Int := if rc.hasRules ∧ rc.valid = false then 40 else 0
  max 0 (min 100
    (max 0 (100 - p40 - 5 * (rc.warnings : Int)) - docPenalty dc - tokenPenalty tc))

end RulesLint.PrReport

namespace RulesLint.Spec

/-- Specification count for the heading-skip predicate: walking the heading
sequence with the first heading implicitly compared against level 0, count
the headings whose level exceeds the previous level plus one. -/
def specSkipAllCount (levels : List Nat) : Nat :=
  ((0 :: levels).zip levels).countP fun p => decide (p.1 + 1 < p.2)

/-- Count of adjacent-pair violations only (no comparison for the first
heading). -/
def adjSkipCount (levels : List Nat) : Nat :=
  (levels.zip levels.tail).countP fun p => decide (p.1 + 1 < p.2)

end RulesLint.Spec

namespace RulesLint

/-- Document refuting the fence-stripping claim: a five-backquote fence
whose body contains a bare three-backquote line followed by a deep heading. -/
def fencedHeadingDoc : String := "`````\n```\n##### h\n`````\n"

/-- Content of the repository test `test_check_code_block_with_lang`: one
properly tagged fenced block, expected by the test to yield no findings. -/
def taggedOnlyDoc : String := "Some text\n\n```python\ncode with language\n```\n"

/-- Two fenced blocks, the first untagged and the second tagged `python`:
the example document of the code-fence language check. -/
def twoBlockDoc : String := "```\na\n```\n\n```python\nb\n```\n"

/-- An existing file under a `docs` segment: exempt from all checks. -/
def docsFile : LintRules.FileRec :=
  { parts := ["docs", "guide.md"], ex := true, content := .ok "" }

end RulesLint

namespace RulesLint.Migrate

/-- Concrete file-system state with a single source file `a.md`. -/
def fs0 : FS := ⟨[("a.md", "hello")]⟩

end RulesLint.Migrate

namespace RulesLint

theorem isPrefixOf_append_self (pat rest : List Char) :
    pat.isPrefixOf (pat ++ rest) = true := by
  induction pat with
  | nil => simp [List.isPrefixOf]
  | cons c t ih => simp [List.isPrefixOf, ih]

theorem hasSub_of_isPre (pat cs : List Char) (h : pat.isPrefixOf cs = true) :
    hasSub pat cs = true := by
  cases cs with
  | nil =>
    cases pat with
    | nil => rfl
    | cons c t => simp [List.isPrefixOf] at h
  | cons c t => simp [hasSub, h]

theorem hasSub_cons (pat : List Char) (c : Char) (t : List Char)
    (h : hasSub pat t = true) : hasSub pat (c :: t) = true := by
  simp [hasSub, h]

theorem hasSub_append_left (pat a b : List Char) (h : hasSub pat b = true) :
    hasSub pat (a ++ b) = true := by
  induction a with
  | nil => simpa using h
  | cons c t ih => simpa using hasSub_cons pat c (t ++ b) ih

theorem seg_sub_join (segs : List String) (s : String) (hs : s ∈ segs) :
    hasSub s.data (LintMd.pathOf segs) = true := by
  induction segs with
  | nil => simp at hs
  | cons a t ih =>
    rcases List.mem_cons.mp hs with rfl | hmem
    · cases t with
      | nil =>
        have h1 : LintMd.pathOf [s] = s.data := rfl
        rw [h1]
        have h2 := isPrefixOf_append_self s.data []
        rw [List.append_nil] at h2
        exact hasSub_of_isPre _ _ h2
      | cons b t2 =>
        have h1 : LintMd.pathOf (s :: b :: t2)
            = s.data ++ '/' :: LintMd.joinSegs ((b :: t2).map String.data) := rfl
        rw [h1]
        exact hasSub_of_isPre _ _ (isPrefixOf_append_self _ _)
    · cases t with
      | nil => simp at hmem
      | cons b t2 =>
        have h1 : LintMd.pathOf (a :: b :: t2)
            = a.data ++ '/' :: LintMd.pathOf (b :: t2) := rfl
        rw [h1]
        exact hasSub_append_left _ _ _ (hasSub_cons _ _ _ (ih hmem))

theorem skipScanFrom_length (levels : List Nat) :
    ∀ prev, (skipScanFrom prev levels).length
      = ((prev :: levels).zip levels).countP fun p => decide (p.1 + 1 < p.2) := by
  induction levels with
  | nil => intro prev; simp [skipScanFrom]
  | cons c t ih =>
    intro prev
    by_cases h : prev + 1 < c <;>
      simp [skipScanFrom, h, ih c, List.countP_cons, Nat.add_comm]

theorem skipScanFrom_mem (levels : List Nat) :
    ∀ prev p, p ∈ skipScanFrom prev levels → p.1 + 1 < p.2 := by
  induction levels with
  | nil => intro prev p h; simp [skipScanFrom] at h
  | cons c t ih =>
    intro prev p h
    simp only [skipScanFrom, List.mem_append] at h
    rcases h with h | h
    · by_cases hc : prev + 1 < c
      · simp only [hc, if_true, List.mem_singleton] at h
        subst h; exact hc
      · simp [hc] at h
    · exact ih c p h

theorem filter_map_true {α β : Type} (f : α → β) (p : β → Bool)
    (h : ∀ a, p (f a) = true) : ∀ l : List α, (l.map f).filter p = l.map f := by
  intro l
  induction l with
  | nil => rfl
  | cons a t ih => simp [h, ih]

theorem filter_map_false {α β : Type} (f : α → β) (p : β → Bool)
    (h : ∀ a, p (f a) = false) : ∀ l : List α, (l.map f).filter p = [] := by
  intro l
  induction l with
  | nil => rfl
  | cons a t ih => simp [h, ih]

/-- Claim C1 (corrected), counterexample: the claim states that in both
linting tools the first heading is implicitly compared against level 0.  On
a document whose only heading has level 2 the claimed walk yields one skip
finding (`specSkipAllCount [2] = 1`), and lint-rules does report it, but
lint-md's `check_header_skipping` reports nothing because its loop starts
at the second heading. -/
theorem c1_heading_skip_counterexample :
    LintMd.checkHeaderSkipping ("## x\n".data) = []
    ∧ LintMd.headerLevelsOf ("## x\n".data) = [2]
    ∧ Spec.specSkipAllCount [2] = 1
    ∧ LintRules.checkHeaderLevels ("## x\n".data)
        = [LintRules.Issue.skipErr 0 2] := by
  decide

/-- Claim C1 (corrected), amended: lint-rules walks the heading sequence
with the first heading compared against level 0, while lint-md compares
only from the second heading on, so its first heading is never flagged.
In both, exactly the adjacent pairs with `current > previous + 1` are
reported (so level decreases never produce findings), and the level
sequences `[1, 3]` and `[1, 2, 2, 3]` yield one and zero findings
respectively in both tools. -/
theorem c1_heading_skip_amended :
    (∀ levels : List Nat,
      (skipScanFrom 0 levels).length = Spec.specSkipAllCount levels)
    ∧ (∀ levels : List Nat,
      (LintMd.skipOfLevels levels).length = Spec.adjSkipCount levels)
    ∧ (∀ levels : List Nat,
      (skipScanFrom 0 levels).all (fun p => decide (p.1 + 1 < p.2)) = true)
    ∧ (∀ levels : List Nat,
      (LintMd.skipOfLevels levels).all (fun p => decide (p.1 + 1 < p.2)) = true)
    ∧ (skipScanFrom 0 [1, 3]).length = 1
    ∧ (LintMd.skipOfLevels [1, 3]).length = 1
    ∧ (skipScanFrom 0 [1, 2, 2, 3]).length = 0
    ∧ (LintMd.skipOfLevels [1, 2, 2, 3]).length = 0
    ∧ LintMd.checkHeaderSkipping ("# a\n### b\n".data) = [(1, 3)]
    ∧ LintRules.checkHeaderLevels ("# a\n### b\n".data)
        = [LintRules.Issue.skipErr 1 3] := by
  refine ⟨?_, ?_, ?_, ?_, by decide, by decide, by decide, by decide, by decide, by decide⟩
  · intro levels
    simpa [Spec.specSkipAllCount] using skipScanFrom_length levels 0
  · intro levels
    cases levels with
    | nil => rfl
    | cons a t =>
      simpa [LintMd.skipOfLevels, Spec.adjSkipCount] using skipScanFrom_length t a
  · intro levels
    rw [List.all_eq_true]
    intro p hp
    simpa using skipScanFrom_mem levels 0 p hp
  · intro levels
    cases levels with
    | nil => rfl
    | cons a t =>
      rw [List.all_eq_true]
      intro p hp
      simpa using skipScanFrom_mem t a p hp

/-- Claim C2 (code bug): the scan of `CODE_BLOCK_PATTERN` matches closing
fence lines too, so a document whose only block is properly tagged
(the content of the repository test `test_check_code_block_with_lang`,
which asserts zero findings) is reported with one finding naming
position 2 — the closing fence — and the two-block example document is
reported with positions 1, 2 and 4 instead of only position 1. -/
theorem c2_language_tag_positions :
    LintMd.tagsOf taggedOnlyDoc.data = ["python".data, []]
    ∧ LintMd.checkCodeBlockLanguageTags taggedOnlyDoc.data = [[2]]
    ∧ LintMd.checkCodeBlockLanguageTags twoBlockDoc.data = [[1, 2, 4]] := by
  decide

/-- Claim C3 (corrected), counterexample: `is_rule_file` tests the keywords
as substrings of the whole path string, not as whole segments.  The path
`foo-rules-x/a.md` has no segment equal to any keyword, yet it is
classified as a rule file and its name is subjected to (and fails) the
filename-pattern check, which the claim forbids. -/
theorem c3_classifier_counterexample :
    LintMd.isRuleFile (LintMd.pathOf ["foo-rules-x", "a.md"]) = true
    ∧ (["foo-rules-x", "a.md"].all
        fun s => !(LintMd.RULE_FILE_KEYWORDS.contains s)) = true
    ∧ LintMd.checkFilenameFormat ["foo-rules-x", "a.md"]
        = some ("a.md".data) := by
  decide

/-- Claim C3 (corrected), amended: a path is a candidate rule file iff the
whole path string contains one of the keywords as a substring; a segment
equal to a keyword is sufficient but not necessary.  Paths not classified
as rule files are never subjected to the filename-pattern check (which in
lint-md accepts only the `.md` extension). -/
theorem c3_classifier_amended :
    (∀ segs : List String,
      (∃ s, s ∈ segs ∧ s ∈ LintMd.RULE_FILE_KEYWORDS) →
      LintMd.isRuleFile (LintMd.pathOf segs) = true)
    ∧ (∀ segs : List String,
      LintMd.isRuleFile (LintMd.pathOf segs) = false →
      LintMd.checkFilenameFormat segs = none)
    ∧ LintMd.checkFilenameFormat ["rulesets", "01-general.md"] = none
    ∧ LintMd.checkFilenameFormat ["rulesets", "general.md"]
        = some ("general.md".data)
    ∧ LintMd.checkFilenameFormat ["docs", "guide.md"] = none := by
  refine ⟨?_, ?_, by decide, by decide, by decide⟩
  · rintro segs ⟨s, hs, hk⟩
    unfold LintMd.isRuleFile
    rw [List.any_eq_true]
    exact ⟨s, hk, seg_sub_join segs s hs⟩
  · intro segs h
    simp [LintMd.checkFilenameFormat, h]

/-- Claim C3 witness: a keyword segment makes a path a candidate, and a
keyword-free path escapes the filename check. -/
theorem c3_classifier_amended_witness :
    LintMd.isRuleFile (LintMd.pathOf [".cursor", "rules", "01-general.md"]) = true
    ∧ LintMd.checkFilenameFormat ["zzz", "a.md"] = none :=
  ⟨c3_classifier_amended.1 [".cursor", "rules", "01-general.md"]
      ⟨"rules", by decide, by decide⟩,
    c3_classifier_amended.2.1 ["zzz", "a.md"] (by decide)⟩

/-- Claim C4 (confirmed): `MDCValidator.validate_file` always returns a
`(valid, errors, warnings)` triple whose validity flag is exactly the
emptiness of the error list, and for every behaviour of the external YAML
parser a parse failure is converted into a parse-error finding with an
invalid result instead of escaping as an uncaught fault. -/
theorem c4_parse_failure_contained :
    (∀ (ex : Bool) (path : String) (readRes : Except String String)
        (parse : List Char → ValidateMdc.YParse),
      (ValidateMdc.validateFile ex path readRes parse).1
        = (ValidateMdc.validateFile ex path readRes parse).2.1.isEmpty)
    ∧ (∀ (path content : String) (parse : List Char → ValidateMdc.YParse)
        (e : String) (p0 p1 p2 : List Char),
      ValidateMdc.pySuffix path = ".mdc".data →
      ("---".data).isPrefixOf content.data = true →
      ValidateMdc.split3 ("---".data) content.data = [p0, p1, p2] →
      parse (trimL p1) = ValidateMdc.YParse.perr e →
      ValidateMdc.validateFile true path (.ok content) parse
        = (false, [ValidateMdc.VErr.yamlErr e], [])) := by
  constructor
  · intro ex path readRes parse
    unfold ValidateMdc.validateFile
    repeat' (first | rfl | split)
  · intro path content parse e p0 p1 p2 h1 h2 h3 h4
    simp [ValidateMdc.validateFile, h1, h2, h3, h4]

/-- Claim C4 witness: a concrete file whose metadata block fails to parse
is reported invalid with the parse-error finding. -/
theorem c4_parse_failure_contained_witness :
    ValidateMdc.validateFile true "r.mdc" (.ok "---\nx\n---\nb")
        (fun _ => ValidateMdc.YParse.perr "boom")
      = (false, [ValidateMdc.VErr.yamlErr "boom"], []) :=
  c4_parse_failure_contained.2 "r.mdc" "---\nx\n---\nb" _ "boom"
    ("".data) ("\nx\n".data) ("\nb".data) (by decide) (by decide) (by decide) rfl

/-- Claim C5 (corrected), counterexample: on a document with two level-4
headings the claim demands one warning per heading with level in (3, 4]
(two warnings), but lint-rules emits a single aggregated warning naming
the maximal level. -/
theorem c5_heading_depth_counterexample :
    LintRules.strippedLevels ("#### a\n#### b\n".data) = [4, 4]
    ∧ (LintRules.checkHeaderLevels ("#### a\n#### b\n".data)).filter
        (fun i => !i.isErr) = [LintRules.Issue.depthWarn 4]
    ∧ ([4, 4].countP fun l => decide (3 < l ∧ l ≤ 4)) = 2 := by
  decide

/-- Claim C5 (corrected), amended: every heading with level above 4 yields
its own error finding in both tools, and the depth warning of lint-rules is
a single aggregated warning, present exactly when the maximal heading level
exceeds 3 (also when it exceeds 4) and naming that maximum; lint-md emits
no depth warnings. -/
theorem c5_heading_depth_amended :
    (∀ levels : List Nat,
      ((LintRules.headerIssues levels).filter LintRules.Issue.isDepthErrB).length
        = levels.countP fun l => decide (4 < l))
    ∧ (∀ cs : List Char,
      (LintMd.checkHeaderLevels cs).length
        = (LintMd.headerLevelsOf cs).countP fun l => decide (4 < l))
    ∧ (∀ levels : List Nat,
      (LintRules.headerIssues levels).filter (fun i => !i.isErr)
        = if 3 < LintRules.maxLevel levels then
            [LintRules.Issue.depthWarn (LintRules.maxLevel levels)]
          else [])
    ∧ LintRules.checkHeaderLevels ("#### a\n##### b\n".data)
        = [LintRules.Issue.depthErr 5, LintRules.Issue.skipErr 0 4,
            LintRules.Issue.depthWarn 5]
    ∧ LintMd.checkHeaderLevels ("#### a\n##### b\n".data) = [5] := by
  refine ⟨?_, ?_, ?_, by decide, by decide⟩
  · intro levels
    unfold LintRules.headerIssues
    rw [List.filter_append, List.filter_append]
    rw [filter_map_true LintRules.Issue.depthErr LintRules.Issue.isDepthErrB
      (fun _ => rfl)]
    rw [filter_map_false (fun p : Nat × Nat => LintRules.Issue.skipErr p.1 p.2)
      LintRules.Issue.isDepthErrB (fun _ => rfl)]
    have h3 : (if 3 < LintRules.maxLevel levels then
        [LintRules.Issue.depthWarn (LintRules.maxLevel levels)]
      else []).filter LintRules.Issue.isDepthErrB = [] := by
      split <;> rfl
    rw [h3]
    simp [List.countP_eq_length_filter]
  · intro cs
    unfold LintMd.checkHeaderLevels
    simp [List.countP_eq_length_filter]
  · intro levels
    unfold LintRules.headerIssues
    rw [List.filter_append, List.filter_append]
    rw [filter_map_false LintRules.Issue.depthErr (fun i => !i.isErr)
      (fun _ => rfl)]
    rw [filter_map_false (fun p : Nat × Nat => LintRules.Issue.skipErr p.1 p.2)
      (fun i => !i.isErr) (fun _ => rfl)]
    split <;> rfl

/-- Claim C6 (code bug): a five-backquote fence whose body contains a bare
three-backquote line satisfies the claim's hypothesis (every heading-shaped
line sits inside a fenced block with a matching closing fence), yet both
strippers stop at the inner backquote run, leave the `##### h` line behind,
and both tools extract a level-5 heading and report findings on it. -/
theorem c6_fenced_heading_leak :
    LintMd.headerLevelsOf fencedHeadingDoc.data = [5]
    ∧ LintRules.strippedLevels fencedHeadingDoc.data = [5]
    ∧ LintMd.checkHeaderLevels fencedHeadingDoc.data = [5]
    ∧ LintRules.checkHeaderLevels fencedHeadingDoc.data
        = [LintRules.Issue.depthErr 5, LintRules.Issue.skipErr 0 5,
            LintRules.Issue.depthWarn 5] := by
  decide

/-- Claim C7 (corrected), counterexample: with a failed rule validation and
one unresolved warning the claim's additive penalties give
`100 - 40 - 5 = 55`, but `calculate_quality_score` only subtracts the 40
(the warning penalty sits in an `elif` branch), yielding 60 — which also
flips the exit-code decision at the 60 threshold. -/
theorem c7_quality_score_counterexample :
    PrReport.calculateQualityScore ⟨true, false, 1⟩ ⟨false, false⟩
        ⟨false, false, 0⟩ = 60
    ∧ PrReport.claimScore ⟨true, false, 1⟩ ⟨false, false⟩ ⟨false, false, 0⟩ = 55
    ∧ PrReport.mainExitCode ⟨true, false, 1⟩ ⟨false, false⟩ ⟨false, false, 0⟩ = 0 := by
  decide

/-- Claim C7 (corrected), amended: the score starts at 100; a rule
validation failure costs 40 and then the per-warning penalty does not
apply; when validation passed, each warning costs 5, floored at 0 before
the remaining penalties; a missing changelog update costs 20; a
token-reduction shortfall costs 40 below 50% and 20 below 70%; the result
is clamped to [0, 100]; and the process exits nonzero iff the final score
is below 60. -/
theorem c7_quality_score_amended :
    ∀ (rc : PrReport.RuleCheck) (dc : PrReport.DocCheck)
      (tc : PrReport.TokenCheck),
      (0 ≤ PrReport.calculateQualityScore rc dc tc
        ∧ PrReport.calculateQualityScore rc dc tc ≤ 100)
      ∧ (PrReport.mainExitCode rc dc tc = 1
          ↔ PrReport.calculateQualityScore rc dc tc < 60)
      ∧ (rc.hasRules = true → rc.valid = false →
          PrReport.calculateQualityScore rc dc tc
            = max 0 (min 100
                (60 - PrReport.docPenalty dc - PrReport.tokenPenalty tc)))
      ∧ (rc.hasRules = true → rc.valid = true →
          PrReport.calculateQualityScore rc dc tc
            = max 0 (min 100 (max 0 (100 - 5 * (rc.warnings : Int))
                - PrReport.docPenalty dc - PrReport.tokenPenalty tc)))
      ∧ (rc.hasRules = false →
          PrReport.calculateQualityScore rc dc tc
            = max 0 (min 100
                (100 - PrReport.docPenalty dc - PrReport.tokenPenalty tc))) := by
  intro rc dc tc
  have hraw : PrReport.scoreRaw rc dc tc
      = PrReport.scoreBase rc - PrReport.docPenalty dc - PrReport.tokenPenalty tc := by
    unfold PrReport.scoreRaw PrReport.scoreDoc PrReport.docPenalty
      PrReport.tokenPenalty
    split_ifs <;> omega
  refine ⟨⟨le_max_left 0 _, max_le (by norm_num) (min_le_left 100 _)⟩, ?_, ?_, ?_, ?_⟩
  · unfold PrReport.mainExitCode
    split_ifs with h <;> simp <;> omega
  · intro h1 h2
    have hb : PrReport.scoreBase rc = 60 := by simp [PrReport.scoreBase, h1, h2]
    unfold PrReport.calculateQualityScore
    rw [hraw, hb]
  · intro h1 h2
    have hb : PrReport.scoreBase rc = max 0 (100 - 5 * (rc.warnings : Int)) := by
      by_cases hw : 0 < rc.warnings
      · simp [PrReport.scoreBase, h1, h2, hw]
      · have hz : rc.warnings = 0 := by omega
        simp [PrReport.scoreBase, h1, h2, hw, hz]
    unfold PrReport.calculateQualityScore
    rw [hraw, hb]
  · intro h1
    have hb : PrReport.scoreBase rc = 100 := by simp [PrReport.scoreBase, h1]
    unfold PrReport.calculateQualityScore
    rw [hraw, hb]

/-- Claim C7 witness: the amended formula evaluated in the
validation-failed case. -/
theorem c7_quality_score_amended_witness :
    PrReport.calculateQualityScore ⟨true, false, 3⟩ ⟨true, false⟩
        ⟨false, true, 80⟩
      = max 0 (min 100 (60 - PrReport.docPenalty ⟨true, false⟩
          - PrReport.tokenPenalty ⟨false, true, 80⟩)) :=
  (c7_quality_score_amended ⟨true, false, 3⟩ ⟨true, false⟩
      ⟨false, true, 80⟩).2.2.1 rfl rfl

theorem checkDirectory_filter_aux (files : List LintRules.FileRec) :
    ∀ acc : Nat × Nat,
      files.foldl
        (fun acc f =>
          if LintRules.isExempt f then acc
          else if (LintRules.checkFile f).1 then (acc.1 + 1, acc.2)
          else (acc.1, acc.2 + 1)) acc
      = (files.filter fun f => !LintRules.isExempt f).foldl
          (fun acc f =>
            if (LintRules.checkFile f).1 then (acc.1 + 1, acc.2)
            else (acc.1, acc.2 + 1)) acc := by
  induction files with
  | nil => intro acc; rfl
  | cons g t ih =>
    intro acc
    by_cases hg : LintRules.isExempt g <;>
      simp [hg, List.filter_cons, List.foldl_cons, ih]

/-- Claim C8 (corrected), counterexample: a directory sweep over a single
exempt file (an existing `docs/guide.md`) produces an empty per-file result
list and `(0, 0)` pass/fail counts — the exempt file is omitted, not
recorded as vacuously valid — even though single-file validation of the
same file reports it valid with zero findings. -/
theorem c8_exempt_counterexample :
    LintRules.dirResults [docsFile] = []
    ∧ LintRules.checkDirectory [docsFile] = (0, 0)
    ∧ LintRules.checkFile docsFile = (true, [], []) := by
  decide

/-- Claim C8 (corrected), amended: an existing exempt file is reported
vacuously valid with zero findings by single-file validation
(`check_file`), while directory sweeps (`check_directory` and the JSON
directory walk) skip exempt files entirely, so their counts and per-file
results range exactly over the non-exempt files. -/
theorem c8_exempt_amended :
    (∀ f : LintRules.FileRec, f.ex = true → LintRules.isExempt f = true →
      LintRules.checkFile f = (true, [], []))
    ∧ (∀ files : List LintRules.FileRec,
      LintRules.checkDirectory files
        = LintRules.countsOver (files.filter fun f => !LintRules.isExempt f))
    ∧ (∀ files : List LintRules.FileRec,
      LintRules.dirResults files
        = (files.filter fun f => !LintRules.isExempt f).map LintRules.checkFile) := by
  refine ⟨?_, ?_, ?_⟩
  · intro f h1 h2
    simp [LintRules.checkFile, h1, h2]
  · intro files
    unfold LintRules.checkDirectory LintRules.countsOver
    exact checkDirectory_filter_aux files (0, 0)
  · intro files
    induction files with
    | nil => rfl
    | cons g t ih =>
      by_cases hg : LintRules.isExempt g <;>
        simp [LintRules.dirResults, List.filterMap_cons, List.filter_cons, hg] <;>
        simpa [LintRules.dirResults] using ih

/-- Claim C8 witness: the exempt-file branch applied to a concrete
existing `docs` file. -/
theorem c8_exempt_amended_witness :
    LintRules.checkFile docsFile = (true, [], []) :=
  c8_exempt_amended.1 docsFile rfl (by decide)

/-- Claim C9 (confirmed): for every existing path whose extension is not
exactly `.mdc`, `validate_file` returns invalid with the single
extension-mismatch error and empty warnings, for every read outcome and
every parser behaviour — so no content is read and no frontmatter or
schema check runs. -/
theorem c9_extension_gate :
    ∀ (path : String) (readRes : Except String String)
      (parse : List Char → ValidateMdc.YParse),
      ValidateMdc.pySuffix path ≠ ".mdc".data →
      ValidateMdc.validateFile true path readRes parse
        = (false, [ValidateMdc.VErr.badSuffix path], []) := by
  intro path readRes parse h
  simp [ValidateMdc.validateFile, h]

/-- Claim C9 witness: a `.md` file whose content would be a fully valid MDC
document is still rejected on the extension alone. -/
theorem c9_extension_gate_witness :
    ValidateMdc.validateFile true "rules/01-a.md"
        (.ok "---\ndescription: x\nglobs: [a]\nalwaysApply: true\n---\nbody")
        (fun _ => ValidateMdc.YParse.pok ValidateMdc.YVal.yNull)
      = (false, [ValidateMdc.VErr.badSuffix "rules/01-a.md"], []) :=
  c9_extension_gate _ _ _ (by decide)

/-- Claim C10 (confirmed): with `dry_run` set, `migrate_file` never mutates
the file system — for every conversion behaviour, force flag, path and
state the resulting state is unchanged — and it still returns success
whenever the `.md` source exists and the `.mdc` target is absent or
`force` is set. -/
theorem c10_dry_run_frame :
    ∀ (dump : Migrate.MdcMeta → String) (force : Bool) (mdPath : String)
      (fs : Migrate.FS),
      (Migrate.migrateFile dump true force mdPath fs).2 = fs
      ∧ (fs.hasFile mdPath = true →
          ValidateMdc.pySuffix mdPath = ".md".data →
          (fs.hasFile (Migrate.withSuffixMdc mdPath) = false ∨ force = true) →
          (Migrate.migrateFile dump true force mdPath fs).1 = true) := by
  intro dump force mdPath fs
  constructor
  · unfold Migrate.migrateFile
    split_ifs <;> simp_all
  · intro h1 h2 h3
    rcases h3 with h3 | h3 <;> simp [Migrate.migrateFile, h1, h2, h3]

/-- Claim C10 witness: a dry run on a concrete one-file state keeps the
state and reports success. -/
theorem c10_dry_run_frame_witness :
    (Migrate.migrateFile (fun _ => "") true false "a.md" Migrate.fs0).2
        = Migrate.fs0
    ∧ (Migrate.migrateFile (fun _ => "") true false "a.md" Migrate.fs0).1
        = true :=
  ⟨(c10_dry_run_frame (fun _ => "") false "a.md" Migrate.fs0).1,
    (c10_dry_run_frame (fun _ => "") false "a.md" Migrate.fs0).2
      (by decide) (by decide) (Or.inl (by decide))⟩

end RulesLint
